import Mathlib

/-
Shallow embedding of the FX + crypto backend (src/app.py).

Modelling conventions:
* JSON values (Python dicts/lists/numbers/strings as produced by r.json())
  are modelled by the inductive type JVal.  Python dicts are association
  lists; Python floats are rationals; Python ints are Int.
* Wall-clock time (time.time()) is an explicit integer parameter `now`,
  threaded through every operation that reads the clock.
* The upstream HTTP fetch (fetch_json) is modelled as an oracle argument of
  type FetchResult: either the request fails (httpx transport error,
  timeout, or raise_for_status on a non-2xx response) or it yields a
  decoded JSON body.  The URL string itself plays no role in the cache or
  control-flow logic, so it is not modelled.
* Exceptions escaping a handler are modelled by the AppError type:
  fastapi.HTTPException carries its status code and detail string; an
  httpx error propagating out of fetch_json is upstreamFailure; an uncaught
  Python TypeError / KeyError / AttributeError is pyRuntimeError.
* String case functions (str.upper / str.lower / str.strip / str.split)
  are modelled character-wise over the string's character list, ASCII-wise,
  exactly as Lean's Char.toUpper / Char.toLower behave.
-/

/-- JSON-like values: the dynamic data manipulated by the app.  Python dicts
are association lists of string keys, floats are rationals, ints are Int. -/
inductive JVal : Type where
  | jnum (q : ℚ)
  | jint (n : ℤ)
  | jstr (s : String)
  | jbool (b : Bool)
  | jnull
  | jdict (entries : List (String × JVal))
  | jarr (elems : List JVal)

/-- Python truthiness of a JSON value: None, 0, empty string, empty dict
and empty list are falsy, everything else is truthy. -/
def JVal.truthy : JVal → Bool
  | .jnum q => q != 0
  | .jint n => n != 0
  | .jstr s => s != ""
  | .jbool b => b
  | .jnull => false
  | .jdict entries => !entries.isEmpty
  | .jarr elems => !elems.isEmpty

/-- Errors escaping a request handler.  httpException models a raised
fastapi.HTTPException (status code, detail); upstreamFailure models an httpx
exception propagating out of fetch_json; pyRuntimeError models an uncaught
Python runtime error such as TypeError, KeyError or AttributeError. -/
inductive AppError : Type where
  | httpException (status : Nat) (detail : String)
  | upstreamFailure
  | pyRuntimeError (msg : String)

/-- Outcome of the upstream fetch_json oracle: either the HTTP request fails
(transport error, timeout, non-2xx status) or a decoded JSON body arrives. -/
inductive FetchResult : Type where
  | fetchFailed
  | success (body : JVal)

/-- The TTL cache of src/app.py (class TTLCache): a mapping from string key
to (timestamp, payload), modelled as an association list where the first
binding for a key is its current value. -/
structure TTLCache (α : Type) : Type where
  store : List (String × ℤ × α)

/-- TTLCache.get: returns the stored payload if an entry exists for the key
and now - entry_timestamp < max_age, otherwise None.  The method only reads
self.store, so a stale entry is left in place (the embedding is a pure
function of the store). -/
def TTLCache.get {α : Type} (c : TTLCache α) (now : ℤ) (key : String) (max_age : ℤ) : Option α :=
  match c.store.lookup key with
  | some (ts, data) => if now - ts < max_age then some data else none
  | none => none

/-- TTLCache.set: self.store[key] = (time.time(), data) — inserts or fully
replaces the binding for the key, stamped with the current time. -/
def TTLCache.set {α : Type} (c : TTLCache α) (now : ℤ) (key : String) (data : α) : TTLCache α :=
  ⟨(key, now, data) :: c.store.filter (fun e => !(e.1 == key))⟩

/-- The single process-wide cache stores JSON dict payloads. -/
abbrev AppCache := TTLCache JVal

/-- Python's `if cached:` guard applied to the value returned by cache.get:
a hit only counts when the returned value is truthy. -/
def truthyOpt : Option JVal → Option JVal
  | some v => if v.truthy then some v else none
  | none => none

/-- Python dict.get(k): returns the value or None; raises AttributeError
when the receiver is not a dict. -/
def pyDictGet (v : JVal) (k : String) : Except AppError (Option JVal) :=
  match v with
  | .jdict entries => .ok (entries.lookup k)
  | _ => .error (.pyRuntimeError "AttributeError")

/-- Python subscription v[k] with a string key: dict lookup raising KeyError
on a missing key; any non-dict receiver raises TypeError. -/
def pyDictIndex (v : JVal) (k : String) : Except AppError JVal :=
  match v with
  | .jdict entries =>
    match entries.lookup k with
    | some x => .ok x
    | none => .error (.pyRuntimeError "KeyError")
  | _ => .error (.pyRuntimeError "TypeError")

/-- Equality of a JSON value with a Python string (Python == across types
is False for non-strings). -/
def jvalEqStr : JVal → String → Bool
  | .jstr t, s => t == s
  | _, _ => false

/-- Python `s in v`: key membership for dicts, element membership for lists,
substring test for strings; TypeError for non-container values. -/
def pyContains (container : JVal) (s : String) : Except AppError Bool :=
  match container with
  | .jdict entries => .ok (entries.lookup s).isSome
  | .jarr elems => .ok (elems.any (fun v => jvalEqStr v s))
  | .jstr t => .ok (s.isEmpty || (t.splitOn s).length ≥ 2)
  | _ => .error (.pyRuntimeError "TypeError")

/-- Python float * value: numbers (and bools, which are ints) multiply;
anything else raises TypeError. -/
def pyMulNum (a : ℚ) (v : JVal) : Except AppError ℚ :=
  match v with
  | .jnum q => .ok (a * q)
  | .jint n => .ok (a * (n : ℚ))
  | .jbool b => .ok (a * (if b then 1 else 0))
  | _ => .error (.pyRuntimeError "TypeError")

/-- Python str.upper(), character-wise (ASCII). -/
def pyUpper (s : String) : String := String.mk (s.data.map Char.toUpper)

/-- Python str.lower(), character-wise (ASCII). -/
def pyLower (s : String) : String := String.mk (s.data.map Char.toLower)

/-- Leading-whitespace removal on a character list. -/
def dropWhitespace (cs : List Char) : List Char := cs.dropWhile Char.isWhitespace

/-- Python str.strip(): removes leading and trailing whitespace. -/
def pyStrip (s : String) : String :=
  String.mk ((dropWhitespace ((dropWhitespace s.data).reverse)).reverse)

/-- Accumulator loop for str.split(","): cut the character stream at every
comma, keeping empty segments. -/
def pySplitCommaAux : List Char → List Char → List String
  | [], acc => [String.mk acc.reverse]
  | c :: rest, acc =>
    if c == ',' then String.mk acc.reverse :: pySplitCommaAux rest []
    else pySplitCommaAux rest (c :: acc)

/-- Python s.split(","): splits on every comma; the empty string yields a
single empty segment. -/
def pySplitComma (s : String) : List String := pySplitCommaAux s.data []

/-- Python ",".join(xs). -/
def joinComma : List String → String
  | [] => ""
  | [x] => x
  | x :: xs => x ++ "," ++ joinComma xs

/-- Lexicographic comparison of character lists by code point, exactly
Python's string ordering. -/
def charsLe : List Char → List Char → Bool
  | [], _ => true
  | _ :: _, [] => false
  | a :: as, b :: bs =>
    if a < b then true
    else if b < a then false
    else charsLe as bs

/-- Python string comparison a <= b (lexicographic by code point). -/
def strLe (a b : String) : Bool := charsLe a.data b.data

/-- Propositional form of strLe, for use with Mathlib's sorting lemmas. -/
def strLeP (a b : String) : Prop := strLe a b = true

instance : DecidableRel strLeP := fun a b => instDecidableEqBool (strLe a b) true

/-- Python sorted() on a list of strings. -/
def pySorted (xs : List String) : List String := List.insertionSort strLeP xs

/-- Cache key of get_fiat_rates: base = base.upper(); key = "fx:" + base. -/
def fx_key (base : String) : String := "fx:" ++ pyUpper base

/-- Cache key of get_crypto_simple: coins and vs are lowercased, then
key = "cg:" + ",".join(sorted(coins)) + "|" + ",".join(sorted(vs)). -/
def get_crypto_key (coins vs : List String) : String :=
  "cg:" ++ joinComma (pySorted (coins.map pyLower)) ++ "|" ++ joinComma (pySorted (vs.map pyLower))

/-- Result of running an aggregator: the returned payload or the raised
error, the cache state afterwards, and whether fetch_json was invoked. -/
structure AggOutcome : Type where
  result : Except AppError JVal
  cache : AppCache
  fetched : Bool

/-- get_fiat_rates(base) from src/app.py: uppercase the base, try the cache
with a 30-minute max age, otherwise fetch; raise 502 when the response has
no truthy "rates" field; otherwise build {base, rates, ts} and cache it. -/
def get_fiat_rates (cache : AppCache) (now : ℤ) (fetch : FetchResult) (base : String) : AggOutcome :=
  match truthyOpt (cache.get now (fx_key base) (60 * 30)) with
  | some cached => ⟨.ok cached, cache, false⟩
  | none =>
    match fetch with
    | .fetchFailed => ⟨.error .upstreamFailure, cache, true⟩
    | .success data =>
      match pyDictGet data "rates" with
      | .error e => ⟨.error e, cache, true⟩
      | .ok ratesOpt =>
        if (ratesOpt.getD .jnull).truthy then
          ⟨.ok (.jdict [("base", .jstr (pyUpper base)), ("rates", ratesOpt.getD .jnull), ("ts", .jint now)]),
           cache.set now (fx_key base)
             (.jdict [("base", .jstr (pyUpper base)), ("rates", ratesOpt.getD .jnull), ("ts", .jint now)]),
           true⟩
        else ⟨.error (.httpException 502 "No rates"), cache, true⟩

/-- Test for `not isinstance(data, dict) or not data` being False: the
response must be a dict and non-empty. -/
def isNonEmptyDict : JVal → Bool
  | .jdict entries => !entries.isEmpty
  | _ => false

/-- get_crypto_simple(coins, vs) from src/app.py: lowercase both lists,
try the cache with a 60-second max age, otherwise fetch; raise 502 unless
the response is a non-empty dict; otherwise build {data, ts} and cache it. -/
def get_crypto_simple (cache : AppCache) (now : ℤ) (fetch : FetchResult) (coins vs : List String) : AggOutcome :=
  match truthyOpt (cache.get now (get_crypto_key coins vs) 60) with
  | some cached => ⟨.ok cached, cache, false⟩
  | none =>
    match fetch with
    | .fetchFailed => ⟨.error .upstreamFailure, cache, true⟩
    | .success data =>
      if isNonEmptyDict data then
        ⟨.ok (.jdict [("data", data), ("ts", .jint now)]),
         cache.set now (get_crypto_key coins vs) (.jdict [("data", data), ("ts", .jint now)]),
         true⟩
      else ⟨.error (.httpException 502 "No crypto data"), cache, true⟩

/-- Body of the /fx handler after get_fiat_rates has produced its outcome:
membership test of the uppercased target in data["rates"], 400 on a missing
target, otherwise the conversion response dict (in the evaluation order of
the source: data["rates"], the membership test, data["rates"][to_up],
amount * rate, data["ts"]). -/
def fx_body (o : AggOutcome) (base to_ : String) (amount : ℚ) : AggOutcome :=
  match o.result with
  | .error e => ⟨.error e, o.cache, o.fetched⟩
  | .ok data =>
    match pyDictIndex data "rates" with
    | .error e => ⟨.error e, o.cache, o.fetched⟩
    | .ok ratesVal =>
      match pyContains ratesVal (pyUpper to_) with
      | .error e => ⟨.error e, o.cache, o.fetched⟩
      | .ok mem =>
        if mem then
          match pyDictIndex ratesVal (pyUpper to_) with
          | .error e => ⟨.error e, o.cache, o.fetched⟩
          | .ok rate =>
            match pyMulNum amount rate with
            | .error e => ⟨.error e, o.cache, o.fetched⟩
            | .ok res =>
              match pyDictIndex data "ts" with
              | .error e => ⟨.error e, o.cache, o.fetched⟩
              | .ok tsv =>
                ⟨.ok (.jdict [("base", .jstr (pyUpper base)), ("to", .jstr (pyUpper to_)),
                              ("rate", rate), ("amount", .jnum amount),
                              ("result", .jnum res), ("ts", tsv)]),
                 o.cache, o.fetched⟩
        else ⟨.error (.httpException 400 ("Unsupported target: " ++ pyUpper to_)), o.cache, o.fetched⟩

/-- The /fx route handler: data = await get_fiat_rates(base), then the
conversion body. -/
def fx (cache : AppCache) (now : ℤ) (fetch : FetchResult) (base to_ : String) (amount : ℚ) : AggOutcome :=
  fx_body (get_fiat_rates cache now fetch base) base to_ amount

/-- Query-string parsing of the /crypto route: split on commas, strip each
segment, drop falsy (empty) segments. -/
def parse_csv (s : String) : List String :=
  ((pySplitComma s).map pyStrip).filter (fun t => !(t == ""))

/-- The /crypto route handler: parse both csv parameters and delegate to
get_crypto_simple. -/
def crypto (cache : AppCache) (now : ℤ) (fetch : FetchResult) (coins vs : String) : AggOutcome :=
  get_crypto_simple cache now fetch (parse_csv coins) (parse_csv vs)

/-- Membership extracted from a successful association-list lookup. -/
lemma lookup_mem {α : Type} {l : List (String × α)} {k : String} {v : α}
    (h : l.lookup k = some v) : (k, v) ∈ l := by
  induction l with
  | nil => simp [List.lookup] at h
  | cons e l ih =>
    obtain ⟨k', v'⟩ := e
    rw [List.lookup] at h
    split at h
    · next heq =>
      obtain rfl := eq_of_beq heq
      obtain rfl := Option.some.inj h
      exact List.mem_cons_self _ _
    · exact List.mem_cons_of_mem _ (ih h)

/-- Totality of the code-point lexicographic order. -/
lemma charsLe_total : ∀ (as bs : List Char), charsLe as bs = true ∨ charsLe bs as = true := by
  intro as
  induction as with
  | nil => intro bs; left; rfl
  | cons a as ih =>
    intro bs
    cases bs with
    | nil => right; rfl
    | cons b bs =>
      rcases lt_trichotomy a b with h | h | h
      · left; simp [charsLe, h]
      · subst h
        rcases ih bs with h2 | h2
        · left; simp [charsLe, lt_self_iff_false, h2]
        · right; simp [charsLe, lt_self_iff_false, h2]
      · right; simp [charsLe, h]

/-- Transitivity of the code-point lexicographic order. -/
lemma charsLe_trans : ∀ (as bs cs : List Char),
    charsLe as bs = true → charsLe bs cs = true → charsLe as cs = true := by
  intro as
  induction as with
  | nil => intro bs cs _ _; rfl
  | cons a as ih =>
    intro bs cs h1 h2
    cases bs with
    | nil => simp [charsLe] at h1
    | cons b bs =>
      cases cs with
      | nil => simp [charsLe] at h2
      | cons c cs =>
        rcases lt_trichotomy a b with hab | hab | hab
        · rcases lt_trichotomy b c with hbc | hbc | hbc
          · simp [charsLe, lt_trans hab hbc]
          · subst hbc; simp [charsLe, hab]
          · simp [charsLe, hbc, not_lt_of_gt hbc] at h2
        · subst hab
          rcases lt_trichotomy a c with hac | hac | hac
          · simp [charsLe, hac]
          · subst hac
            simp only [charsLe, lt_self_iff_false, if_false] at h1 h2 ⊢
            exact ih _ _ h1 h2
          · simp [charsLe, hac, not_lt_of_gt hac] at h2
        · simp [charsLe, hab, not_lt_of_gt hab] at h1

/-- Antisymmetry of the code-point lexicographic order. -/
lemma charsLe_antisymm : ∀ (as bs : List Char),
    charsLe as bs = true → charsLe bs as = true → as = bs := by
  intro as
  induction as with
  | nil =>
    intro bs h1 h2
    cases bs with
    | nil => rfl
    | cons b bs => simp [charsLe] at h2
  | cons a as ih =>
    intro bs h1 h2
    cases bs with
    | nil => simp [charsLe] at h1
    | cons b bs =>
      rcases lt_trichotomy a b with hab | hab | hab
      · simp [charsLe, hab, not_lt_of_gt hab] at h2
      · subst hab
        simp only [charsLe, lt_self_iff_false, if_false] at h1 h2
        rw [ih bs h1 h2]
      · simp [charsLe, hab, not_lt_of_gt hab] at h1

instance : IsTotal String strLeP := ⟨fun a b => charsLe_total a.data b.data⟩

instance : IsTrans String strLeP := ⟨fun a b c h1 h2 => charsLe_trans a.data b.data c.data h1 h2⟩

instance : IsAntisymm String strLeP := ⟨fun a b h1 h2 => String.ext (charsLe_antisymm a.data b.data h1 h2)⟩

/-- Sorting is invariant under permutation of the input. -/
lemma pySorted_perm_eq {l1 l2 : List String} (h : l1.Perm l2) : pySorted l1 = pySorted l2 :=
  List.eq_of_perm_of_sorted
    ((List.perm_insertionSort strLeP l1).trans (h.trans (List.perm_insertionSort strLeP l2).symm))
    (List.sorted_insertionSort strLeP l1) (List.sorted_insertionSort strLeP l2)

/-- Claim C1: TTLCache.get(key, maxAge) returns the stored payload exactly
when an entry exists for the key and now - entry.timestamp < maxAge, and
returns None in every other case.  The read never deletes a stale entry:
in the source, get only reads self.store, which the embedding reflects by
get being a pure function of the store that returns only the payload. -/
theorem claimC1_ttlcache_get {α : Type} (c : TTLCache α) (now : ℤ) (key : String) (max_age : ℤ) :
    (∀ d : α, c.get now key max_age = some d ↔
        ∃ ts, c.store.lookup key = some (ts, d) ∧ now - ts < max_age) ∧
    (c.get now key max_age = none ↔
        ∀ ts (d : α), c.store.lookup key = some (ts, d) → max_age ≤ now - ts) := by
  constructor
  · intro d
    unfold TTLCache.get
    rcases hl : c.store.lookup key with _ | ⟨ts0, d0⟩
    · simp
    · dsimp only
      constructor
      · intro h
        by_cases hf : now - ts0 < max_age
        · rw [if_pos hf] at h
          obtain rfl := Option.some.inj h
          exact ⟨ts0, rfl, hf⟩
        · rw [if_neg hf] at h; cases h
      · rintro ⟨ts, hts, hf⟩
        injection Option.some.inj hts with h1 h2
        subst h1; subst h2
        rw [if_pos hf]
  · unfold TTLCache.get
    rcases hl : c.store.lookup key with _ | ⟨ts0, d0⟩
    · simp
    · dsimp only
      constructor
      · intro h ts d hts
        injection Option.some.inj hts with h1 h2
        subst h1; subst h2
        by_cases hf : now - ts0 < max_age
        · rw [if_pos hf] at h; cases h
        · exact not_lt.mp hf
      · intro h
        rw [if_neg (not_lt.mpr (h ts0 d0 rfl))]

/-- Claim C1 witness: a concrete fresh entry is returned by get. -/
theorem claimC1_witness :
    TTLCache.get (⟨[("k", (5 : ℤ), (42 : Nat))]⟩ : TTLCache Nat) 6 "k" 60 = some 42 :=
  ((claimC1_ttlcache_get ⟨[("k", 5, 42)]⟩ 6 "k" 60).1 42).mpr ⟨5, by decide, by decide⟩

/-- Claim C3: two crypto requests whose coin lists and vs-currency lists are
case variants and/or permutations of each other (their lowercased lists are
permutations) compute the same cache key in get_crypto_simple, hence every
cache read for the two requests consults the same cache entry. -/
theorem claimC3_crypto_key_normalization (coins1 coins2 vs1 vs2 : List String)
    (hc : (coins1.map pyLower).Perm (coins2.map pyLower))
    (hv : (vs1.map pyLower).Perm (vs2.map pyLower)) :
    get_crypto_key coins1 vs1 = get_crypto_key coins2 vs2 ∧
    ∀ (cache : AppCache) (now max_age : ℤ),
      cache.get now (get_crypto_key coins1 vs1) max_age =
        cache.get now (get_crypto_key coins2 vs2) max_age := by
  have hkey : get_crypto_key coins1 vs1 = get_crypto_key coins2 vs2 := by
    unfold get_crypto_key
    rw [pySorted_perm_eq hc, pySorted_perm_eq hv]
  exact ⟨hkey, fun cache now max_age => by rw [hkey]⟩

/-- Claim C3 witness: the two example requests of the spec share a key. -/
theorem claimC3_witness :
    get_crypto_key ["ethereum", "bitcoin"] ["ngn", "usd"] =
      get_crypto_key ["bitcoin", "ethereum"] ["usd", "ngn"] :=
  (claimC3_crypto_key_normalization ["ethereum", "bitcoin"] ["bitcoin", "ethereum"]
    ["ngn", "usd"] ["usd", "ngn"] (by decide) (by decide)).1

/-- Claim C8 counterexample: the claim says every currency code appearing in
a cache key is uppercased, including the crypto vs-currencies; but
get_crypto_simple lowercases the vs list, so for vs = ["Usd"] the key holds
"usd", not "USD". -/
theorem claimC8_counterexample :
    get_crypto_key ["bitcoin"] ["Usd"] = "cg:bitcoin|usd" ∧
    ("cg:bitcoin|usd" : String) ≠ "cg:bitcoin|USD" := by
  exact ⟨rfl, by decide⟩

/-- Claim C8 (amended): cache keys are derived from normalized request
parameters — the fiat base uppercased, the crypto coin ids AND vs-currencies
lowercased, multi-value lists sorted — so keys are insensitive to letter
case and to list order. -/
theorem claimC8_amended_key_normalization (base : String) (coins vs : List String) :
    fx_key base = "fx:" ++ pyUpper base ∧
    get_crypto_key coins vs =
      "cg:" ++ joinComma (pySorted (coins.map pyLower)) ++ "|" ++
        joinComma (pySorted (vs.map pyLower)) ∧
    (∀ base2, pyUpper base2 = pyUpper base → fx_key base2 = fx_key base) ∧
    (∀ coins2 vs2, (coins2.map pyLower).Perm (coins.map pyLower) →
        (vs2.map pyLower).Perm (vs.map pyLower) →
        get_crypto_key coins2 vs2 = get_crypto_key coins vs) := by
  refine ⟨rfl, rfl, ?_, ?_⟩
  · intro b2 h
    unfold fx_key
    rw [h]
  · intro c2 v2 hc hv
    unfold get_crypto_key
    rw [pySorted_perm_eq hc, pySorted_perm_eq hv]

/-- Claim C8 (amended) witness: case variants collide on the same key. -/
theorem claimC8_amended_witness :
    get_crypto_key ["BITCOIN"] ["USD"] = get_crypto_key ["bitcoin"] ["usd"] :=
  (claimC8_amended_key_normalization "usd" ["bitcoin"] ["usd"]).2.2.2
    ["BITCOIN"] ["USD"] (by decide) (by decide)

/-- Claim C10: the /crypto handler splits each csv parameter on commas,
strips surrounding whitespace from each segment, silently drops empty
segments, and delegates the resulting lists to get_crypto_simple; the
example input "bitcoin, ,ethereum," parses to [bitcoin, ethereum], and
all-empty inputs parse to the empty list without an error at this layer. -/
theorem claimC10_crypto_route_parsing :
    (∀ (cache : AppCache) (now : ℤ) (fetch : FetchResult) (coins vs : String),
        crypto cache now fetch coins vs =
          get_crypto_simple cache now fetch (parse_csv coins) (parse_csv vs)) ∧
    parse_csv "bitcoin, ,ethereum," = ["bitcoin", "ethereum"] ∧
    parse_csv " , ," = [] ∧
    parse_csv "" = [] ∧
    (∀ s t, t ∈ parse_csv s → t ≠ "" ∧ ∃ seg ∈ pySplitComma s, t = pyStrip seg) := by
  refine ⟨fun _ _ _ _ _ => rfl, by decide, by decide, by decide, ?_⟩
  intro s t ht
  unfold parse_csv at ht
  obtain ⟨htmem, htne⟩ := List.mem_filter.mp ht
  obtain ⟨seg, hseg, rfl⟩ := List.mem_map.mp htmem
  refine ⟨?_, seg, hseg, rfl⟩
  intro h
  rw [h] at htne
  simp at htne

/-- Claim C10 witness: the first parsed segment of the example input. -/
theorem claimC10_witness :
    "bitcoin" ≠ "" ∧ ∃ seg ∈ pySplitComma "bitcoin, ,ethereum,", "bitcoin" = pyStrip seg :=
  claimC10_crypto_route_parsing.2.2.2.2 "bitcoin, ,ethereum," "bitcoin" (by decide)

/-- A non-empty-dict test succeeds exactly on non-empty dicts. -/
lemma isNonEmptyDict_spec {data : JVal} (h : isNonEmptyDict data = true) :
    ∃ entries, data = .jdict entries ∧ entries ≠ [] := by
  cases data with
  | jnum q => simp [isNonEmptyDict] at h
  | jint n => simp [isNonEmptyDict] at h
  | jstr s => simp [isNonEmptyDict] at h
  | jbool b => simp [isNonEmptyDict] at h
  | jnull => simp [isNonEmptyDict] at h
  | jarr elems => simp [isNonEmptyDict] at h
  | jdict entries =>
    refine ⟨entries, rfl, fun hnil => ?_⟩
    subst hnil
    simp [isNonEmptyDict] at h

/-- A read directly after a write to the same key sees the written payload,
freshness permitting. -/
lemma ttl_get_set_self {α : Type} (c : TTLCache α) (now : ℤ) (key : String) (v : α)
    (now2 max_age : ℤ) :
    (c.set now key v).get now2 key max_age = if now2 - now < max_age then some v else none := by
  unfold TTLCache.set TTLCache.get
  simp [List.lookup]

/-- Exhaustive outcome analysis of get_fiat_rates: a truthy cache hit leaves
the cache alone and skips the fetch; every error leaves the cache alone; the
only success path through the fetch stores the freshly built payload. -/
lemma get_fiat_rates_spec (cache : AppCache) (now : ℤ) (fetch : FetchResult) (base : String) :
    (∃ c, truthyOpt (cache.get now (fx_key base) (60 * 30)) = some c ∧
        get_fiat_rates cache now fetch base = ⟨.ok c, cache, false⟩) ∨
    (∃ e, get_fiat_rates cache now fetch base = ⟨.error e, cache, true⟩) ∨
    (∃ r, r.truthy = true ∧
        get_fiat_rates cache now fetch base =
          ⟨.ok (.jdict [("base", .jstr (pyUpper base)), ("rates", r), ("ts", .jint now)]),
           cache.set now (fx_key base)
             (.jdict [("base", .jstr (pyUpper base)), ("rates", r), ("ts", .jint now)]),
           true⟩) := by
  unfold get_fiat_rates
  split
  · next c heq => exact Or.inl ⟨c, heq, rfl⟩
  · split
    · exact Or.inr (Or.inl ⟨.upstreamFailure, rfl⟩)
    · split
      · next e heq => exact Or.inr (Or.inl ⟨e, rfl⟩)
      · next ropt heq =>
        split
        · next htr => exact Or.inr (Or.inr ⟨ropt.getD .jnull, htr, rfl⟩)
        · exact Or.inr (Or.inl ⟨.httpException 502 "No rates", rfl⟩)

/-- Exhaustive outcome analysis of get_crypto_simple, analogous to
get_fiat_rates_spec. -/
lemma get_crypto_simple_spec (cache : AppCache) (now : ℤ) (fetch : FetchResult)
    (coins vs : List String) :
    (∃ c, truthyOpt (cache.get now (get_crypto_key coins vs) 60) = some c ∧
        get_crypto_simple cache now fetch coins vs = ⟨.ok c, cache, false⟩) ∨
    (∃ e, get_crypto_simple cache now fetch coins vs = ⟨.error e, cache, true⟩) ∨
    (∃ entries, entries ≠ [] ∧ fetch = .success (.jdict entries) ∧
        get_crypto_simple cache now fetch coins vs =
          ⟨.ok (.jdict [("data", .jdict entries), ("ts", .jint now)]),
           cache.set now (get_crypto_key coins vs)
             (.jdict [("data", .jdict entries), ("ts", .jint now)]),
           true⟩) := by
  unfold get_crypto_simple
  split
  · next c heq => exact Or.inl ⟨c, heq, rfl⟩
  · split
    · exact Or.inr (Or.inl ⟨.upstreamFailure, rfl⟩)
    · next data =>
      split
      · next hne =>
        obtain ⟨entries, rfl, hnonnil⟩ := isNonEmptyDict_spec hne
        exact Or.inr (Or.inr ⟨entries, hnonnil, rfl, rfl⟩)
      · exact Or.inr (Or.inl ⟨.httpException 502 "No crypto data", rfl⟩)

/-- Claim C4: whenever get_fiat_rates or get_crypto_simple raises (upstream
fetch failure, malformed payload, or empty payload), the cache state after
the call is exactly the cache state before it. -/
theorem claimC4_errors_not_cached (cache : AppCache) (now : ℤ) (fetch : FetchResult)
    (base : String) (coins vs : List String) :
    (∀ e, (get_fiat_rates cache now fetch base).result = .error e →
        (get_fiat_rates cache now fetch base).cache = cache) ∧
    (∀ e, (get_crypto_simple cache now fetch coins vs).result = .error e →
        (get_crypto_simple cache now fetch coins vs).cache = cache) := by
  constructor
  · intro e h
    rcases get_fiat_rates_spec cache now fetch base with ⟨c, _, ho⟩ | ⟨e', ho⟩ | ⟨r, _, ho⟩
    · rw [ho] at h; cases h
    · rw [ho]
    · rw [ho] at h; cases h
  · intro e h
    rcases get_crypto_simple_spec cache now fetch coins vs with ⟨c, _, ho⟩ | ⟨e', ho⟩ | ⟨en, _, _, ho⟩
    · rw [ho] at h; cases h
    · rw [ho]
    · rw [ho] at h; cases h

/-- Claim C4 witness: a failed upstream fetch on an empty cache leaves the
cache empty, for both aggregators. -/
theorem claimC4_witness :
    (get_fiat_rates ⟨[]⟩ 0 .fetchFailed "USD").cache = (⟨[]⟩ : AppCache) ∧
    (get_crypto_simple ⟨[]⟩ 0 .fetchFailed ["bitcoin"] ["usd"]).cache = (⟨[]⟩ : AppCache) :=
  ⟨(claimC4_errors_not_cached ⟨[]⟩ 0 .fetchFailed "USD" ["bitcoin"] ["usd"]).1
      .upstreamFailure rfl,
   (claimC4_errors_not_cached ⟨[]⟩ 0 .fetchFailed "USD" ["bitcoin"] ["usd"]).2
      .upstreamFailure rfl⟩

/-- A fiat call that succeeded and fetched stored its own payload, and that
payload is truthy. -/
lemma get_fiat_rates_write (cache : AppCache) (now : ℤ) (fetch : FetchResult) (base : String)
    (p : JVal)
    (hres : (get_fiat_rates cache now fetch base).result = .ok p)
    (hfet : (get_fiat_rates cache now fetch base).fetched = true) :
    (get_fiat_rates cache now fetch base).cache = cache.set now (fx_key base) p ∧
      p.truthy = true := by
  rcases get_fiat_rates_spec cache now fetch base with ⟨c, _, ho⟩ | ⟨e, ho⟩ | ⟨r, htr, ho⟩
  · rw [ho] at hfet; simp at hfet
  · rw [ho] at hres; simp at hres
  · rw [ho] at hres ⊢
    dsimp only at hres ⊢
    injection hres with h
    subst h
    exact ⟨rfl, rfl⟩

/-- A crypto call that succeeded and fetched stored its own payload, and that
payload is truthy. -/
lemma get_crypto_simple_write (cache : AppCache) (now : ℤ) (fetch : FetchResult)
    (coins vs : List String) (p : JVal)
    (hres : (get_crypto_simple cache now fetch coins vs).result = .ok p)
    (hfet : (get_crypto_simple cache now fetch coins vs).fetched = true) :
    (get_crypto_simple cache now fetch coins vs).cache =
        cache.set now (get_crypto_key coins vs) p ∧ p.truthy = true := by
  rcases get_crypto_simple_spec cache now fetch coins vs with
    ⟨c, _, ho⟩ | ⟨e, ho⟩ | ⟨en, _, _, ho⟩
  · rw [ho] at hfet; simp at hfet
  · rw [ho] at hres; simp at hres
  · rw [ho] at hres ⊢
    dsimp only at hres ⊢
    injection hres with h
    subst h
    exact ⟨rfl, rfl⟩

/-- Claim C5: a request that succeeds and populates the cache makes any
second identical request within the max age (1800 s fiat, 60 s crypto)
return the very same cached payload — same ts — without invoking the
upstream fetch, whatever the second fetch oracle would have answered. -/
theorem claimC5_ttl_idempotence :
    (∀ (cache : AppCache) (now : ℤ) (fetch : FetchResult) (base : String) (p : JVal)
        (now2 : ℤ) (fetch2 : FetchResult),
      (get_fiat_rates cache now fetch base).result = .ok p →
      (get_fiat_rates cache now fetch base).fetched = true →
      now2 - now < 60 * 30 →
      get_fiat_rates (get_fiat_rates cache now fetch base).cache now2 fetch2 base =
        ⟨.ok p, (get_fiat_rates cache now fetch base).cache, false⟩) ∧
    (∀ (cache : AppCache) (now : ℤ) (fetch : FetchResult) (coins vs : List String) (p : JVal)
        (now2 : ℤ) (fetch2 : FetchResult),
      (get_crypto_simple cache now fetch coins vs).result = .ok p →
      (get_crypto_simple cache now fetch coins vs).fetched = true →
      now2 - now < 60 →
      get_crypto_simple (get_crypto_simple cache now fetch coins vs).cache now2 fetch2 coins vs =
        ⟨.ok p, (get_crypto_simple cache now fetch coins vs).cache, false⟩) := by
  constructor
  · intro cache now fetch base p now2 fetch2 hres hfet hage
    obtain ⟨hc, htr⟩ := get_fiat_rates_write cache now fetch base p hres hfet
    rw [hc]
    unfold get_fiat_rates
    rw [ttl_get_set_self, if_pos hage]
    simp [truthyOpt, htr]
  · intro cache now fetch coins vs p now2 fetch2 hres hfet hage
    obtain ⟨hc, htr⟩ := get_crypto_simple_write cache now fetch coins vs p hres hfet
    rw [hc]
    unfold get_crypto_simple
    rw [ttl_get_set_self, if_pos hage]
    simp [truthyOpt, htr]

/-- Claim C5 witness: concrete repeat requests inside the TTL window hit the
cache for both aggregators. -/
theorem claimC5_witness :
    get_fiat_rates
        (get_fiat_rates ⟨[]⟩ 0 (.success (.jdict [("rates", .jdict [("NGN", .jnum 1500)])])) "usd").cache
        10 .fetchFailed "usd" =
      ⟨.ok (.jdict [("base", .jstr "USD"), ("rates", .jdict [("NGN", .jnum 1500)]), ("ts", .jint 0)]),
       (get_fiat_rates ⟨[]⟩ 0 (.success (.jdict [("rates", .jdict [("NGN", .jnum 1500)])])) "usd").cache,
       false⟩ ∧
    get_crypto_simple
        (get_crypto_simple ⟨[]⟩ 0 (.success (.jdict [("bitcoin", .jdict [("usd", .jnum 4)])])) ["bitcoin"] ["usd"]).cache
        10 .fetchFailed ["bitcoin"] ["usd"] =
      ⟨.ok (.jdict [("data", .jdict [("bitcoin", .jdict [("usd", .jnum 4)])]), ("ts", .jint 0)]),
       (get_crypto_simple ⟨[]⟩ 0 (.success (.jdict [("bitcoin", .jdict [("usd", .jnum 4)])])) ["bitcoin"] ["usd"]).cache,
       false⟩ :=
  ⟨claimC5_ttl_idempotence.1 ⟨[]⟩ 0 (.success (.jdict [("rates", .jdict [("NGN", .jnum 1500)])]))
      "usd" _ 10 .fetchFailed rfl rfl (by decide),
   claimC5_ttl_idempotence.2 ⟨[]⟩ 0 (.success (.jdict [("bitcoin", .jdict [("usd", .jnum 4)])]))
      ["bitcoin"] ["usd"] _ 10 .fetchFailed rfl rfl (by decide)⟩

/-- Claim C9: every payload written to the cache by the aggregators is a
non-empty dict carrying an integer "ts" (fiat payloads also carry "base" and
"rates", crypto payloads carry "data"), and for a cache whose payloads are
all truthy the aggregators' truthiness guard on cache.get never turns a
genuine fresh hit into a miss. -/
theorem claimC9_payload_invariant :
    (∀ (cache : AppCache) (now : ℤ) (fetch : FetchResult) (base : String)
        (k : String) (ts : ℤ) (v : JVal),
      (k, ts, v) ∈ (get_fiat_rates cache now fetch base).cache.store →
      (k, ts, v) ∈ cache.store ∨
        ∃ entries, v = JVal.jdict entries ∧ entries ≠ [] ∧
          entries.lookup "ts" = some (.jint now) ∧
          (entries.lookup "base").isSome = true ∧
          (entries.lookup "rates").isSome = true ∧ v.truthy = true) ∧
    (∀ (cache : AppCache) (now : ℤ) (fetch : FetchResult) (coins vs : List String)
        (k : String) (ts : ℤ) (v : JVal),
      (k, ts, v) ∈ (get_crypto_simple cache now fetch coins vs).cache.store →
      (k, ts, v) ∈ cache.store ∨
        ∃ entries, v = JVal.jdict entries ∧ entries ≠ [] ∧
          entries.lookup "ts" = some (.jint now) ∧
          (entries.lookup "data").isSome = true ∧ v.truthy = true) ∧
    (∀ c : AppCache, (∀ k ts v, (k, ts, v) ∈ c.store → JVal.truthy v = true) →
      ∀ (now : ℤ) (key : String) (max_age : ℤ),
        truthyOpt (c.get now key max_age) = c.get now key max_age) := by
  refine ⟨?_, ?_, ?_⟩
  · intro cache now fetch base k ts v hmem
    rcases get_fiat_rates_spec cache now fetch base with ⟨c, _, ho⟩ | ⟨e, ho⟩ | ⟨r, htr, ho⟩
    · rw [ho] at hmem; exact Or.inl hmem
    · rw [ho] at hmem; exact Or.inl hmem
    · rw [ho] at hmem
      dsimp only at hmem
      unfold TTLCache.set at hmem
      rcases List.mem_cons.mp hmem with heq | hmem'
    
      · simp only [Prod.mk.injEq] at heq
        obtain ⟨rfl, rfl, rfl⟩ := heq
        exact Or.inr ⟨_, rfl, by simp, rfl, rfl, rfl, rfl⟩
      · exact Or.inl (List.mem_of_mem_filter hmem')
  · intro cache now fetch coins vs k ts v hmem
    rcases get_crypto_simple_spec cache now fetch coins vs with
      ⟨c, _, ho⟩ | ⟨e, ho⟩ | ⟨en, _, _, ho⟩
    · rw [ho] at hmem; exact Or.inl hmem
    · rw [ho] at hmem; exact Or.inl hmem
    · rw [ho] at hmem
      dsimp only at hmem
      unfold TTLCache.set at hmem
      rcases List.mem_cons.mp hmem with heq | hmem'
      · simp only [Prod.mk.injEq] at heq
        obtain ⟨rfl, rfl, rfl⟩ := heq
        exact Or.inr ⟨_, rfl, by simp, rfl, rfl, rfl⟩
      · exact Or.inl (List.mem_of_mem_filter hmem')
  · intro c hwf now key max_age
    unfold TTLCache.get
    rcases hl : c.store.lookup key with _ | ⟨ts0, v0⟩
    · rfl
    · dsimp only
      have htr := hwf key ts0 v0 (lookup_mem hl)
      by_cases hf : now - ts0 < max_age
      · rw [if_pos hf]; simp [truthyOpt, htr]
      · rw [if_neg hf]; rfl

/-- Claim C9 witness: the truthiness guard is the identity on a concrete
well-formed cache read. -/
theorem claimC9_witness :
    truthyOpt (TTLCache.get (⟨[("k", (0 : ℤ), JVal.jdict [("ts", JVal.jint 0)])]⟩ : AppCache) 1 "k" 60) =
      TTLCache.get (⟨[("k", (0 : ℤ), JVal.jdict [("ts", JVal.jint 0)])]⟩ : AppCache) 1 "k" 60 :=
  claimC9_payload_invariant.2.2 ⟨[("k", 0, .jdict [("ts", .jint 0)])]⟩
    (by
      intro k ts v h
      simp only [List.mem_singleton, Prod.mk.injEq] at h
      obtain ⟨_, _, rfl⟩ := h
      rfl)
    1 "k" 60

/-- Claim C2: when the uppercased target currency is present (with a numeric
rate) in the rates mapping of the payload obtained for the request base, the
/fx handler returns {base, to, rate, amount, result, ts} with
result = amount * rate and ts taken from the underlying payload — the cached
timestamp, not the time of the conversion call. -/
theorem claimC2_fx_conversion (cache : AppCache) (now : ℤ) (fetch : FetchResult)
    (base to_ : String) (amount : ℚ) (data : JVal) (rd : List (String × JVal))
    (q : ℚ) (tsv : JVal)
    (hdata : (get_fiat_rates cache now fetch base).result = .ok data)
    (hrates : pyDictIndex data "rates" = .ok (.jdict rd))
    (hrate : rd.lookup (pyUpper to_) = some (.jnum q))
    (hts : pyDictIndex data "ts" = .ok tsv) :
    fx cache now fetch base to_ amount =
      ⟨.ok (.jdict [("base", .jstr (pyUpper base)), ("to", .jstr (pyUpper to_)),
                    ("rate", .jnum q), ("amount", .jnum amount),
                    ("result", .jnum (amount * q)), ("ts", tsv)]),
       (get_fiat_rates cache now fetch base).cache,
       (get_fiat_rates cache now fetch base).fetched⟩ := by
  unfold fx fx_body
  rw [hdata]
  dsimp only
  rw [hrates]
  dsimp only
  have hc : pyContains (.jdict rd) (pyUpper to_) = .ok true := by
    simp [pyContains, hrate]
  rw [hc]
  dsimp only
  rw [if_pos rfl]
  have hi : pyDictIndex (.jdict rd) (pyUpper to_) = .ok (.jnum q) := by
    simp [pyDictIndex, hrate]
  rw [hi]
  dsimp only
  have hm : pyMulNum amount (.jnum q) = .ok (amount * q) := rfl
  rw [hm]
  dsimp only
  rw [hts]

/-- Claim C2 witness: the spec's example — rates {NGN: 1500}, amount 100 —
yields result 150000 with the cached ts. -/
theorem claimC2_witness :
    fx ⟨[]⟩ 0 (.success (.jdict [("rates", .jdict [("NGN", .jnum 1500)])])) "USD" "NGN" 100 =
      ⟨.ok (.jdict [("base", .jstr "USD"), ("to", .jstr "NGN"),
                    ("rate", .jnum 1500), ("amount", .jnum 100),
                    ("result", .jnum 150000), ("ts", .jint 0)]),
       (get_fiat_rates ⟨[]⟩ 0 (.success (.jdict [("rates", .jdict [("NGN", .jnum 1500)])])) "USD").cache,
       (get_fiat_rates ⟨[]⟩ 0 (.success (.jdict [("rates", .jdict [("NGN", .jnum 1500)])])) "USD").fetched⟩ := by
  have h := claimC2_fx_conversion ⟨[]⟩ 0
      (.success (.jdict [("rates", .jdict [("NGN", .jnum 1500)])])) "USD" "NGN" 100
      (.jdict [("base", .jstr "USD"), ("rates", .jdict [("NGN", .jnum 1500)]), ("ts", .jint 0)])
      [("NGN", .jnum 1500)] 1500 (.jint 0) rfl rfl rfl rfl
  rw [show ((100 : ℚ) * 1500) = 150000 by norm_num] at h
  exact h

/-- Claim C6: when the uppercased target currency is absent from the rates
mapping of the payload obtained for the request base, the /fx handler fails
with HTTP 400 (bad request) — not a crash and not a null or partial
result. -/
theorem claimC6_unsupported_target (cache : AppCache) (now : ℤ) (fetch : FetchResult)
    (base to_ : String) (amount : ℚ) (data : JVal) (rd : List (String × JVal))
    (hdata : (get_fiat_rates cache now fetch base).result = .ok data)
    (hrates : pyDictIndex data "rates" = .ok (.jdict rd))
    (hmiss : rd.lookup (pyUpper to_) = none) :
    fx cache now fetch base to_ amount =
      ⟨.error (.httpException 400 ("Unsupported target: " ++ pyUpper to_)),
       (get_fiat_rates cache now fetch base).cache,
       (get_fiat_rates cache now fetch base).fetched⟩ := by
  unfold fx fx_body
  rw [hdata]
  dsimp only
  rw [hrates]
  dsimp only
  have hc : pyContains (.jdict rd) (pyUpper to_) = .ok false := by
    simp [pyContains, hmiss]
  rw [hc]
  dsimp only
  rw [if_neg Bool.false_ne_true]

/-- Claim C6 witness: converting to the unknown target "zzz" returns the
400 error with the uppercased target in the message. -/
theorem claimC6_witness :
    fx ⟨[]⟩ 0 (.success (.jdict [("rates", .jdict [("NGN", .jnum 1500)])])) "USD" "zzz" 1 =
      ⟨.error (.httpException 400 "Unsupported target: ZZZ"),
       (get_fiat_rates ⟨[]⟩ 0 (.success (.jdict [("rates", .jdict [("NGN", .jnum 1500)])])) "USD").cache,
       (get_fiat_rates ⟨[]⟩ 0 (.success (.jdict [("rates", .jdict [("NGN", .jnum 1500)])])) "USD").fetched⟩ := by
  have h := claimC6_unsupported_target ⟨[]⟩ 0
      (.success (.jdict [("rates", .jdict [("NGN", .jnum 1500)])])) "USD" "zzz" 1
      (.jdict [("base", .jstr "USD"), ("rates", .jdict [("NGN", .jnum 1500)]), ("ts", .jint 0)])
      [("NGN", .jnum 1500)] rfl rfl rfl
  rw [show ("Unsupported target: " ++ pyUpper "zzz") = "Unsupported target: ZZZ" from rfl] at h
  exact h

/-- Claim C7: on a cache miss with a successful upstream response,
get_crypto_simple raises 502 "No crypto data" exactly when the response is
not a non-empty dict (in particular for {}), and a success always wraps a
non-empty dict — never an empty payload. -/
theorem claimC7_crypto_empty_data (cache : AppCache) (now : ℤ) (coins vs : List String)
    (data : JVal)
    (hmiss : truthyOpt (cache.get now (get_crypto_key coins vs) 60) = none) :
    ((get_crypto_simple cache now (.success data) coins vs).result =
        .error (.httpException 502 "No crypto data") ↔ isNonEmptyDict data = false) ∧
    (∀ p, (get_crypto_simple cache now (.success data) coins vs).result = .ok p →
      ∃ entries, data = .jdict entries ∧ entries ≠ [] ∧
        p = .jdict [("data", data), ("ts", .jint now)]) := by
  unfold get_crypto_simple
  rw [hmiss]
  dsimp only
  cases hd : isNonEmptyDict data
  · rw [if_neg Bool.false_ne_true]
    refine ⟨⟨fun _ => rfl, fun _ => rfl⟩, fun p hp => by simp at hp⟩
  · rw [if_pos rfl]
    obtain ⟨entries, rfl, hne⟩ := isNonEmptyDict_spec hd
    refine ⟨⟨fun hcontra => by simp at hcontra, fun hcontra => by cases hcontra⟩, fun p hp => ?_⟩
    refine ⟨entries, rfl, hne, ?_⟩
    injection hp with h
    exact h.symm

/-- Claim C7 witness: an empty upstream dict on an empty cache yields the
502 error. -/
theorem claimC7_witness :
    (get_crypto_simple ⟨[]⟩ 0 (.success (.jdict [])) ["bitcoin"] ["usd"]).result =
      .error (.httpException 502 "No crypto data") :=
  ((claimC7_crypto_empty_data ⟨[]⟩ 0 ["bitcoin"] ["usd"] (.jdict []) rfl).1).mpr rfl
